import Mathlib

set_option maxHeartbeats 1000000

/- Shallow embedding of the card drop tracker: the SQLite drops store and its
operations from card_drop_monitor.py, and the notification windows from
desktop_notifier.py.  Timestamps are modelled as integer seconds, Python
floats as exact rationals, SQL rows as structures with Option fields for
nullable columns. -/

/-- A regex element maps an input suffix to its candidate (consumed, rest)
splits, listed in backtracking priority order. -/
abbrev RegexElem := List Char → List (List Char × List Char)

/-- Literal single character. -/
def litElem (c : Char) : RegexElem := fun cs =>
  match cs with
  | [] => []
  | d :: rest => if d = c then [([d], rest)] else []

/-- Optional single character, greedy (present first). -/
def optElem (c : Char) : RegexElem := fun cs =>
  match cs with
  | [] => [([], [])]
  | d :: rest => if d = c then [([d], rest), ([], d :: rest)] else [([], d :: rest)]

/-- Longest prefix of the input made of characters satisfying p. -/
def takeRun (p : Char → Bool) : List Char → List Char
  | [] => []
  | c :: cs => if p c then c :: takeRun p cs else []

/-- Character-class repetition: between lo and hi copies (hi = none means
unbounded), greedy, candidates from longest to shortest. -/
def classElem (p : Char → Bool) (lo : Nat) (hi : Option Nat) : RegexElem := fun cs =>
  let runLen := (takeRun p cs).length
  let maxTake := match hi with
    | none => runLen
    | some h => min h runLen
  (((List.range (maxTake + 1)).reverse).filter (fun k => decide (lo ≤ k))).map
    (fun k => (cs.take k, cs.drop k))

/-- Sequential regex matching with backtracking; returns the consumed
characters of the first successful alternative. -/
def matchSeq : List RegexElem → List Char → Option (List Char)
  | [], _ => some []
  | e :: es, cs =>
    (e cs).findSome? (fun tr => (matchSeq es tr.2).map (fun out => tr.1 ++ out))

/-- Leftmost search of a pattern over the input, as re.search. -/
def reFind (es : List RegexElem) : List Char → Option (List Char)
  | [] => matchSeq es []
  | c :: cs =>
    match matchSeq es (c :: cs) with
    | some out => some out
    | none => reFind es cs

def isDigitChar (c : Char) : Bool := c.isDigit

def isWordChar (c : Char) : Bool := c.isAlphanum || c == '_'

def isSpaceChar (c : Char) : Bool := c == ' ' || c == '\t' || c == '\n' || c == '\r'

/-- extract_date pattern (a): MM/DD/YYYY. -/
def datePat1 : List RegexElem :=
  [classElem isDigitChar 1 (some 2), litElem '/', classElem isDigitChar 1 (some 2),
   litElem '/', classElem isDigitChar 4 (some 4)]

/-- extract_date pattern (b): Month DD, YYYY. -/
def datePat2 : List RegexElem :=
  [classElem isWordChar 1 none, classElem isSpaceChar 1 none,
   classElem isDigitChar 1 (some 2), optElem ',', classElem isSpaceChar 1 none,
   classElem isDigitChar 4 (some 4)]

/-- extract_date pattern (c): YYYY-MM-DD. -/
def datePat3 : List RegexElem :=
  [classElem isDigitChar 4 (some 4), litElem '-', classElem isDigitChar 2 (some 2),
   litElem '-', classElem isDigitChar 2 (some 2)]

/-- extract_price pattern after comma stripping. -/
def pricePat : List RegexElem :=
  [optElem '$', classElem isDigitChar 1 none, optElem '.', classElem isDigitChar 0 none]

/-- re.search of one pattern over a string, returning group 0. -/
def reSearch (es : List RegexElem) (text : String) : Option String :=
  (reFind es text.data).map (fun cs => String.mk cs)

/-- CardDropMonitor.extract_date: the first of the three date patterns that
matches anywhere in the text wins; the raw matched substring is returned. -/
def extract_date (text : String) : Option String :=
  match reSearch datePat1 text with
  | some s => some s
  | none =>
    match reSearch datePat2 text with
    | some s => some s
    | none => reSearch datePat3 text

/-- Numeric value of a digit string. -/
def digitsVal (cs : List Char) : Nat := cs.foldl (fun n c => 10 * n + (c.toNat - 48)) 0

/-- A REAL price value, represented exactly: the pair (n, k) denotes the
decimal n divided by ten to the k.  The claims only store and compare prices,
never compute with them, so float rounding is immaterial. -/
abbrev Price := Nat × Nat

/-- Value of float(tok) for tok of shape digits, optional dot, digits. -/
def decimalVal (cs : List Char) : Price :=
  let intPart := cs.takeWhile isDigitChar
  let rest := cs.dropWhile isDigitChar
  let fracPart := match rest with
    | '.' :: t => t
    | _ => []
  (digitsVal intPart * 10 ^ fracPart.length + digitsVal fracPart, fracPart.length)

/-- CardDropMonitor.extract_price: commas stripped, then the first match of the
dollar-and-decimal pattern; group 1 (the match without the optional dollar
sign) is converted to a number. -/
def extract_price (text : String) : Option Price :=
  match reFind pricePat (text.data.filter (fun c => !(c == ','))) with
  | none => none
  | some cs =>
    let g1 := match cs with
      | '$' :: t => t
      | t => t
    some (decimalVal g1)

/-- Leap year rule of the proleptic Gregorian calendar used by datetime. -/
def isLeapYear (y : Nat) : Bool := y % 4 == 0 && (y % 100 != 0 || y % 400 == 0)

def daysInMonth (y m : Nat) : Nat :=
  if m = 2 then (if isLeapYear y then 29 else 28)
  else if m = 4 || m = 6 || m = 9 || m = 11 then 30
  else 31

/-- Days from the Unix epoch to a civil date (standard days-from-civil
algorithm for the Gregorian calendar). -/
def daysFromCivil (y m d : Int) : Int :=
  let y1 := if m ≤ 2 then y - 1 else y
  let era := y1.fdiv 400
  let yoe := y1 - era * 400
  let mp := (m + 9) % 12
  let doy := (153 * mp + 2).fdiv 5 + d - 1
  let doe := yoe * 365 + yoe.fdiv 4 - yoe.fdiv 100 + doy
  era * 146097 + doe - 719468

/-- datetime.fromisoformat on the stored date strings: of the shapes that
extract_date can produce, Python accepts exactly the YYYY-MM-DD form with a
valid month and day; everything else raises ValueError, modelled as none.  The
result is the midnight timestamp in seconds. -/
def fromisoformat (s : String) : Option Int :=
  match s.data with
  | [y1, y2, y3, y4, s1, m1, m2, s2, d1, d2] =>
    if y1.isDigit && y2.isDigit && y3.isDigit && y4.isDigit && s1 == '-' &&
       m1.isDigit && m2.isDigit && s2 == '-' && d1.isDigit && d2.isDigit then
      let y := digitsVal [y1, y2, y3, y4]
      let m := digitsVal [m1, m2]
      let d := digitsVal [d1, d2]
      if 1 ≤ y ∧ 1 ≤ m ∧ m ≤ 12 ∧ 1 ≤ d ∧ d ≤ daysInMonth y m then
        some (86400 * daysFromCivil (y : Int) (m : Int) (d : Int))
      else none
    else none
  | _ => none


/-- One row of the drops table, as created by init_database: nullable columns
are Option, the notified INTEGER flag (DEFAULT 0) is a Bool, the two ISO
timestamp columns are integer seconds. -/
structure DropRow where
  id : Nat
  product_name : String
  retailer : String
  url : String
  price : Option Price
  drop_date : Option String
  drop_time : Option String
  status : String
  discovered_date : Int
  last_checked : Int
  notified : Bool
deriving DecidableEq

/-- One row of the append-only notifications table. -/
structure NotificationRow where
  drop_id : Nat
  notification_date : Int
  notification_type : String
deriving DecidableEq

/-- The SQLite database: the drops rows, the notifications rows, and the next
AUTOINCREMENT id. -/
structure Store where
  rows : List DropRow
  notifs : List NotificationRow
  nextId : Nat
deriving DecidableEq

def emptyStore : Store := ⟨[], [], 1⟩

/-- A scraped candidate record as assembled by the search_* methods: name,
retailer and url are always present strings, price and drop_date are the
extractor outputs. -/
structure Listing where
  name : String
  retailer : String
  url : String
  price : Option Price
  drop_date : Option String
deriving DecidableEq

/-- Assembly of one raw scrape result, as in search_walmart and friends: the
price text and the surrounding text run through the two extractors. -/
def mkListing (name retailer url priceText dateText : String) : Listing :=
  ⟨name, retailer, url, extract_price priceText, extract_date dateText⟩

/-- The UNIQUE(product_name, retailer, url) natural key comparison. -/
def natKeyMatches (l : Listing) (r : DropRow) : Bool :=
  r.product_name == l.name && r.retailer == l.retailer && r.url == l.url

/-- The INSERT OR REPLACE statement of save_drop.  The listed columns come
from the listing and the current time; id is a fresh AUTOINCREMENT value;
drop_time, status and notified take their column defaults; any row with the
same UNIQUE key is deleted first.  The statement raises IntegrityError only
when a NOT NULL column with no default is bound to NULL, and product_name,
retailer and url are bound to required string fields of the record, so the
failure case (none) never arises. -/
def insert_or_replace_drop (st : Store) (l : Listing) (now : Int) : Option Store :=
  some { st with
    rows := st.rows.filter (fun r => !(natKeyMatches l r)) ++
      [⟨st.nextId, l.name, l.retailer, l.url, l.price, l.drop_date, none,
        "upcoming", now, now, false⟩],
    nextId := st.nextId + 1 }

/-- The except sqlite3.IntegrityError fallback of save_drop: UPDATE price,
drop_date and last_checked in place on the matching natural key. -/
def update_on_conflict (st : Store) (l : Listing) (now : Int) : Store :=
  { st with
    rows := st.rows.map (fun r =>
      if natKeyMatches l r then
        { r with price := l.price, drop_date := l.drop_date, last_checked := now }
      else r) }

/-- CardDropMonitor.save_drop. -/
def save_drop (st : Store) (l : Listing) (now : Int) : Store :=
  match insert_or_replace_drop st l now with
  | some st1 => st1
  | none => update_on_conflict st l now

/-- The save loop of run_scan: every scraped record is saved in input order,
each with its own current time. -/
def reconcileBatch (st : Store) (batch : List (Listing × Int)) : Store :=
  batch.foldl (fun s p => save_drop s p.1 p.2) st

/-- SQL row comparison for ORDER BY drop_date ASC, discovered_date DESC:
SQLite sorts NULL before every TEXT value under ASC, TEXT values in binary
string order, and here breaks drop_date ties by discovered_date descending. -/
def sqlRowLe (a b : DropRow) : Bool :=
  match a.drop_date, b.drop_date with
  | none, none => decide (b.discovered_date ≤ a.discovered_date)
  | none, some _ => true
  | some _, none => false
  | some x, some y =>
    if x = y then decide (b.discovered_date ≤ a.discovered_date) else decide (x < y)

def sqlRowRel (a b : DropRow) : Prop := sqlRowLe a b = true

instance : DecidableRel sqlRowRel :=
  fun a b => inferInstanceAs (Decidable (sqlRowLe a b = true))

/-- CardDropMonitor.get_all_drops: the rows with the given status, ordered by
drop_date ASC then discovered_date DESC (insertion sort as a deterministic
model of the SQL ordering). -/
def get_all_drops (st : Store) (status : String) : List DropRow :=
  List.insertionSort sqlRowRel (st.rows.filter (fun r => r.status == status))

/-- CardDropMonitor.mark_as_notified: set the flag on the row and append to
the notifications log. -/
def mark_as_notified (st : Store) (dropId : Nat) (now : Int) : Store :=
  { st with
    rows := st.rows.map (fun r => if r.id == dropId then { r with notified := true } else r),
    notifs := st.notifs ++ [⟨dropId, now, "7-day-alert"⟩] }

/-- Window test of check_for_alerts on the fromisoformat result: on parse
failure the except clause swallows the error and nothing happens; otherwise
alert and mark when the whole-day difference lies between 0 and 7. -/
def alertWindow (now : Int) (acc : List DropRow × Store) (d : DropRow) :
    Option Int → List DropRow × Store
  | some target =>
    if 0 ≤ (target - now).fdiv 86400 ∧ (target - now).fdiv 86400 ≤ 7 then
      (acc.1 ++ [d], mark_as_notified acc.2 d.id now)
    else acc
  | none => acc

/-- Loop body of CardDropMonitor.check_for_alerts on one snapshot row, by
cases on the drop_date column: NULL and the empty string are falsy in Python
and are skipped, as are already notified rows; otherwise the date is parsed
and the window test runs. -/
def alertStepAux (now : Int) (acc : List DropRow × Store) (d : DropRow) :
    Option String → List DropRow × Store
  | none => acc
  | some s =>
    if (!(s == "")) && !d.notified then alertWindow now acc d (fromisoformat s)
    else acc

def alertStep (now : Int) (acc : List DropRow × Store) (d : DropRow) :
    List DropRow × Store :=
  alertStepAux now acc d d.drop_date

/-- CardDropMonitor.check_for_alerts: fetch the upcoming snapshot, then alert
on and mark each of its unnotified rows whose date parses and lies within
seven whole days. -/
def check_for_alerts (st : Store) (now : Int) : List DropRow × Store :=
  (get_all_drops st "upcoming").foldl (alertStep now) ([], st)

/-- The four notification windows of desktop_notifier.py. -/
inductive Tier
  | live_now
  | imminent
  | same_day
  | week_out
deriving DecidableEq

/-- The elif chain of DesktopNotifier.check_upcoming_drops over
time_diff = drop_datetime - now, in seconds; every bound is strict. -/
def classifyTier (diff : Int) : Option Tier :=
  if -3600 < diff ∧ diff < 0 then some Tier.live_now
  else if 0 < diff ∧ diff < 3600 then some Tier.imminent
  else if 3600 < diff ∧ diff < 86400 then some Tier.same_day
  else if 518400 < diff ∧ diff < 604800 then some Tier.week_out
  else none

/-- Classification of the fromisoformat result by the desktop notifier; a
parse failure is printed and swallowed, producing no notification. -/
def tierOfParse (now : Int) : Option Int → Option Tier
  | some target => classifyTier (target - now)
  | none => none

/-- Evaluation of one drop row by the desktop notifier, by cases on the
drop_date column: NULL and the empty string are falsy and skipped, otherwise
the date is parsed and the time difference classified. -/
def evalDropAux (now : Int) : Option String → Option Tier
  | none => none
  | some s => if !(s == "") then tierOfParse now (fromisoformat s) else none

def evalDrop (now : Int) (d : DropRow) : Option Tier :=
  evalDropAux now d.drop_date

/-- The desktop query ordering: ORDER BY drop_date ASC with no tiebreak. -/
def dateOnlyLe (a b : DropRow) : Bool :=
  match a.drop_date, b.drop_date with
  | none, _ => true
  | some _, none => false
  | some x, some y => decide (x ≤ y)

def dateOnlyRel (a b : DropRow) : Prop := dateOnlyLe a b = true

instance : DecidableRel dateOnlyRel :=
  fun a b => inferInstanceAs (Decidable (dateOnlyLe a b = true))

/-- DesktopNotifier.check_upcoming_drops: the ids of the upcoming drops whose
time difference falls inside one of the four windows, in query order; nothing
in the store is consulted about earlier notifications and nothing is
written. -/
def check_upcoming_drops (st : Store) (now : Int) : List Nat :=
  (List.insertionSort dateOnlyRel (st.rows.filter (fun r => r.status == "upcoming"))).filterMap
    (fun d => (evalDrop now d).map (fun _ => d.id))


/-- The natural key of a stored row. -/
def rowKey (r : DropRow) : String × String × String := (r.product_name, r.retailer, r.url)

/-- Key uniqueness invariant of the drops table. -/
def keysDistinct (rows : List DropRow) : Prop :=
  rows.Pairwise (fun a b => rowKey a ≠ rowKey b)

/-- Helper: the row update performed by mark_as_notified. -/
def bumpNotified (r : DropRow) : DropRow := { r with notified := true }

/-- Shape of any store produced by an alert pass: every row of the input store
is still present in place, unchanged except possibly for the notified flag. -/
def passShape (st st2 : Store) : Prop :=
  ∃ g : DropRow → DropRow, st2.rows = st.rows.map g ∧
    ∀ r, g r = r ∨ g r = bumpNotified r

/-- Modelled from the spec, for comparison only: the scan ordering section 4.3
prescribes, target_datetime ascending with nulls last, ties broken by
discovered_at ascending. -/
def spec_scan_le (a b : DropRow) : Bool :=
  match a.drop_date, b.drop_date with
  | none, none => decide (a.discovered_date ≤ b.discovered_date)
  | none, some _ => false
  | some _, none => true
  | some x, some y =>
    if x = y then decide (a.discovered_date ≤ b.discovered_date) else decide (x < y)

def spec_scan_rel (a b : DropRow) : Prop := spec_scan_le a b = true

instance : DecidableRel spec_scan_rel :=
  fun a b => inferInstanceAs (Decidable (spec_scan_le a b = true))

/-- Modelled from the spec: the batch scan sequence the spec prescribes. -/
def spec_scan_order (st : Store) : List DropRow :=
  List.insertionSort spec_scan_rel (st.rows.filter (fun r => r.status == "upcoming"))

instance : IsTotal DropRow sqlRowRel where
  total := by
    intro a b
    show sqlRowLe a b = true ∨ sqlRowLe b a = true
    unfold sqlRowLe
    cases ha : a.drop_date with
    | none =>
      cases hb : b.drop_date with
      | none => simp only [decide_eq_true_eq]; omega
      | some y => left; rfl
    | some x =>
      cases hb : b.drop_date with
      | none => right; rfl
      | some y =>
        dsimp only
        by_cases hxy : x = y
        · subst hxy
          rw [if_pos rfl, if_pos rfl]
          simp only [decide_eq_true_eq]
          omega
        · rw [if_neg hxy, if_neg (Ne.symm hxy)]
          rcases lt_trichotomy x y with h | h | h
          · left; exact decide_eq_true h
          · exact absurd h hxy
          · right; exact decide_eq_true h

instance : IsTrans DropRow sqlRowRel where
  trans := by
    intro a b c hab hbc
    show sqlRowLe a c = true
    have hab : sqlRowLe a b = true := hab
    have hbc : sqlRowLe b c = true := hbc
    unfold sqlRowLe at *
    cases ha : a.drop_date with
    | none =>
      cases hc : c.drop_date with
      | none =>
        cases hb : b.drop_date with
        | none =>
          simp only [ha, hb] at hab
          simp only [hb, hc] at hbc
          simp only [decide_eq_true_eq] at *
          omega
        | some y =>
          simp only [hb, hc] at hbc
          simp at hbc
      | some z => rfl
    | some x =>
      cases hb : b.drop_date with
      | none =>
        simp only [ha, hb] at hab
        simp at hab
      | some y =>
        cases hc : c.drop_date with
        | none =>
          simp only [hb, hc] at hbc
          simp at hbc
        | some z =>
          simp only [ha, hb] at hab
          simp only [hb, hc] at hbc
          dsimp only
          by_cases hxy : x = y
          · subst hxy
            by_cases hyz : x = z
            · subst hyz
              rw [if_pos rfl] at hab hbc ⊢
              simp only [decide_eq_true_eq] at *
              omega
            · rw [if_pos rfl] at hab
              rw [if_neg hyz] at hbc ⊢
              exact hbc
          · by_cases hyz : y = z
            · subst hyz
              rw [if_neg hxy] at hab ⊢
              exact hab
            · rw [if_neg hxy] at hab
              rw [if_neg hyz] at hbc
              have h3 : x < z := lt_trans (of_decide_eq_true hab) (of_decide_eq_true hbc)
              rw [if_neg (ne_of_lt h3)]
              exact decide_eq_true h3

example : extract_date "Releases 12/25/2025 preorder" = some "12/25/2025" := by decide
example : extract_date "out March 1, 2025 here" = some "March 1, 2025" := by decide
example : extract_date "street date 2025-03-01" = some "2025-03-01" := by decide
example : extract_price "$119.99" = some (11999, 2) := by decide
example : extract_price "Out of stock" = none := by decide
example : fromisoformat "2025-03-01" = some (86400 * 20148) := by decide
example : fromisoformat "12/25/2025" = none := by decide
example : daysFromCivil 1970 1 1 = 0 := by decide

example :
    check_upcoming_drops
      ⟨[⟨1, "Booster Box", "RetailerA", "http://x/1", some (11999, 2),
        some "2025-03-01", none, "upcoming", 0, 0, false⟩], [], 2⟩
      (86400 * 20148 - 1800) = [1] := by decide

example :
    ((check_for_alerts
      ⟨[⟨1, "Booster Box", "RetailerA", "http://x/1", some (11999, 2),
        some "2025-03-01", none, "upcoming", 0, 0, false⟩], [], 2⟩
      (86400 * 20142)).1).map (fun r => r.id) = [1] := by decide

example :
    ((check_for_alerts
      (check_for_alerts
        ⟨[⟨1, "Booster Box", "RetailerA", "http://x/1", some (11999, 2),
          some "2025-03-01", none, "upcoming", 0, 0, false⟩], [], 2⟩
        (86400 * 20142)).2
      (86400 * 20142)).1).map (fun r => r.id) = [] := by decide

theorem findSome?_some_mem {α β : Type} {f : α → Option β} :
    ∀ {l : List α} {b : β}, l.findSome? f = some b → ∃ a ∈ l, f a = some b := by
  intro l
  induction l with
  | nil => intro b h; simp [List.findSome?_nil] at h
  | cons a t ih =>
    intro b h
    cases hfa : f a with
    | none =>
      simp only [List.findSome?_cons, hfa] at h
      obtain ⟨x, hx, hfx⟩ := ih h
      exact ⟨x, List.mem_cons_of_mem _ hx, hfx⟩
    | some c =>
      simp only [List.findSome?_cons, hfa] at h
      exact ⟨a, List.mem_cons_self _ _, by rw [hfa, h]⟩

theorem takeRun_length_le (p : Char → Bool) : ∀ cs, (takeRun p cs).length ≤ cs.length := by
  intro cs
  induction cs with
  | nil => simp [takeRun]
  | cons c t ih =>
    unfold takeRun
    by_cases h : p c
    · simp [h]; omega
    · simp [h]

theorem takeRun_take_sat (p : Char → Bool) :
    ∀ cs k, k ≤ (takeRun p cs).length → ∀ c ∈ cs.take k, p c = true := by
  intro cs
  induction cs with
  | nil => intro k _ c hc; simp at hc
  | cons a t ih =>
    intro k hk c hc
    by_cases hp : p a
    · simp only [takeRun, hp, if_true, List.length_cons] at hk
      cases k with
      | zero => simp at hc
      | succ j =>
        simp only [List.take_succ_cons, List.mem_cons] at hc
        rcases hc with rfl | hc
        · exact hp
        · exact ih j (by omega) c hc
    · simp only [takeRun] at hk
      rw [if_neg hp] at hk
      simp only [List.length_nil, Nat.le_zero] at hk
      subst hk
      simp at hc

theorem classElem_mem {p : Char → Bool} {lo : Nat} {hi : Option Nat} {cs tok rest : List Char}
    (h : (tok, rest) ∈ classElem p lo hi cs) :
    lo ≤ tok.length ∧ ∀ c ∈ tok, p c = true := by
  unfold classElem at h
  simp only [List.mem_map, List.mem_filter, List.mem_reverse, List.mem_range,
    decide_eq_true_eq, Prod.mk.injEq] at h
  obtain ⟨k, ⟨hkr, hklo⟩, htok, _⟩ := h
  have hkrun : k ≤ (takeRun p cs).length := by
    cases hi with
    | none => simp at hkr; omega
    | some hbound => simp at hkr; omega
  have hlen : tok.length = k := by
    rw [← htok, List.length_take]
    have := takeRun_length_le p cs
    omega
  refine ⟨by omega, ?_⟩
  intro c hc
  exact takeRun_take_sat p cs k hkrun c (htok ▸ hc)

theorem litElem_mem {c : Char} {cs tok rest : List Char}
    (h : (tok, rest) ∈ litElem c cs) : tok = [c] := by
  unfold litElem at h
  cases cs with
  | nil => simp at h
  | cons d r =>
    by_cases hd : d = c
    · simp [hd] at h
      exact h.1
    · simp [hd] at h

theorem matchSeq_char (Q : Char → Prop) :
    ∀ (es : List RegexElem),
      (∃ e ∈ es, ∀ cs tok rest, (tok, rest) ∈ e cs → ∃ c ∈ tok, Q c) →
      ∀ cs out, matchSeq es cs = some out → ∃ c ∈ out, Q c := by
  intro es
  induction es with
  | nil => rintro ⟨e, he, _⟩; simp at he
  | cons e es ih =>
    rintro ⟨e1, he1, hp⟩ cs out h
    simp only [matchSeq] at h
    obtain ⟨⟨tok, rest⟩, htr, hsome⟩ := findSome?_some_mem h
    simp only [Option.map_eq_some'] at hsome
    obtain ⟨o2, ho2, rfl⟩ := hsome
    rcases List.mem_cons.mp he1 with rfl | hmem
    · obtain ⟨c, hc, hQ⟩ := hp cs tok rest htr
      exact ⟨c, List.mem_append_left _ hc, hQ⟩
    · obtain ⟨c, hc, hQ⟩ := ih ⟨e1, hmem, hp⟩ rest o2 ho2
      exact ⟨c, List.mem_append_right _ hc, hQ⟩

theorem reFind_char (Q : Char → Prop) (es : List RegexElem)
    (hp : ∃ e ∈ es, ∀ cs tok rest, (tok, rest) ∈ e cs → ∃ c ∈ tok, Q c) :
    ∀ cs out, reFind es cs = some out → ∃ c ∈ out, Q c := by
  intro cs
  induction cs with
  | nil => intro out h; exact matchSeq_char Q es hp [] out h
  | cons c cs ih =>
    intro out h
    simp only [reFind] at h
    cases hm : matchSeq es (c :: cs) with
    | some o =>
      rw [hm] at h
      cases h
      exact matchSeq_char Q es hp _ _ hm
    | none =>
      rw [hm] at h
      exact ih out h

theorem reSearch_char (Q : Char → Prop) (es : List RegexElem)
    (hp : ∃ e ∈ es, ∀ cs tok rest, (tok, rest) ∈ e cs → ∃ c ∈ tok, Q c)
    {text s : String} (h : reSearch es text = some s) : ∃ c ∈ s.data, Q c := by
  unfold reSearch at h
  simp only [Option.map_eq_some'] at h
  obtain ⟨cs, hcs, rfl⟩ := h
  exact reFind_char Q es hp text.data cs hcs

theorem reSearch_pat1_slash {text s : String} (h : reSearch datePat1 text = some s) :
    ∃ c ∈ s.data, c = '/' := by
  refine reSearch_char (fun c => c = '/') datePat1 ?_ h
  refine ⟨litElem '/', by simp [datePat1], ?_⟩
  intro cs tok rest hm
  rw [litElem_mem hm]
  exact ⟨'/', by simp⟩

theorem reSearch_pat2_space {text s : String} (h : reSearch datePat2 text = some s) :
    ∃ c ∈ s.data, isSpaceChar c = true := by
  refine reSearch_char (fun c => isSpaceChar c = true) datePat2 ?_ h
  refine ⟨classElem isSpaceChar 1 none, by simp [datePat2], ?_⟩
  intro cs tok rest hm
  obtain ⟨hlen, hsat⟩ := classElem_mem hm
  cases tok with
  | nil => simp at hlen
  | cons c t => exact ⟨c, by simp, hsat c (by simp)⟩

theorem fromisoformat_none_of_bad {s : String} {c : Char} (hc : c ∈ s.data)
    (hd : c.isDigit = false) (hm : (c == '-') = false) : fromisoformat s = none := by
  unfold fromisoformat
  split
  next y1 y2 y3 y4 s1 m1 m2 s2 d1 d2 heq =>
    rw [heq] at hc
    simp only [List.mem_cons, List.not_mem_nil, or_false] at hc
    rcases hc with rfl | rfl | rfl | rfl | rfl | rfl | rfl | rfl | rfl | rfl <;>
      simp [hd, hm]
  next => rfl

theorem fromisoformat_ne_empty {s : String} {t : Int} (h : fromisoformat s = some t) :
    (s == "") = false := by
  by_contra hne
  simp only [Bool.not_eq_false, beq_iff_eq] at hne
  subst hne
  simp [fromisoformat] at h

theorem alertStep_skip_of_parse_fail {now : Int} {acc : List DropRow × Store} {d : DropRow}
    {s : String} (hdate : d.drop_date = some s) (hs : fromisoformat s = none) :
    alertStep now acc d = acc := by
  unfold alertStep
  rw [hdate]
  simp only [alertStepAux]
  by_cases h : ((!(s == "")) && !d.notified) = true
  · rw [if_pos h, hs]
    rfl
  · rw [if_neg h]

theorem alertStep_skip_of_notified {now : Int} {acc : List DropRow × Store} {d : DropRow}
    (hn : d.notified = true) : alertStep now acc d = acc := by
  unfold alertStep
  cases hdd : d.drop_date with
  | none => rfl
  | some s =>
    simp only [alertStepAux]
    rw [if_neg]
    simp [hn]


theorem mark_rows_map (st : Store) (i : Nat) (now : Int) :
    (mark_as_notified st i now).rows =
      st.rows.map (fun r => if r.id == i then bumpNotified r else r) := rfl

theorem alertStep_cases (now : Int) (acc : List DropRow × Store) (d : DropRow) :
    alertStep now acc d = acc ∨
      (d.notified = false ∧
        alertStep now acc d = (acc.1 ++ [d], mark_as_notified acc.2 d.id now)) := by
  unfold alertStep
  cases hdd : d.drop_date with
  | none => left; rfl
  | some s =>
    simp only [alertStepAux]
    by_cases h : ((!(s == "")) && !d.notified) = true
    · rw [if_pos h]
      have hn : d.notified = false := by
        simp only [Bool.and_eq_true] at h
        simpa using h.2
      cases hfs : fromisoformat s with
      | none => left; rfl
      | some target =>
        simp only [alertWindow]
        by_cases hw : 0 ≤ (target - now).fdiv 86400 ∧ (target - now).fdiv 86400 ≤ 7
        · right; exact ⟨hn, by rw [if_pos hw]⟩
        · left; rw [if_neg hw]
    · left; rw [if_neg h]


theorem passShape_refl (st : Store) : passShape st st :=
  ⟨id, by simp, fun _ => Or.inl rfl⟩

theorem passShape_mark (st st2 : Store) (i : Nat) (now : Int) (h : passShape st st2) :
    passShape st (mark_as_notified st2 i now) := by
  obtain ⟨g, hg, hcases⟩ := h
  refine ⟨fun r => if (g r).id == i then bumpNotified (g r) else g r, ?_, ?_⟩
  · rw [mark_rows_map, hg, List.map_map]
    rfl
  · intro r
    dsimp only
    by_cases hid : ((g r).id == i) = true
    · rw [if_pos hid]
      rcases hcases r with h1 | h1 <;> rw [h1] <;> exact Or.inr rfl
    · rw [if_neg hid]
      exact hcases r

theorem foldl_alertStep_shape (now : Int) :
    ∀ (ds : List DropRow) (acc : List DropRow × Store) (st : Store),
      passShape st acc.2 → passShape st (ds.foldl (alertStep now) acc).2 := by
  intro ds
  induction ds with
  | nil => intro acc st h; exact h
  | cons d t ih =>
    intro acc st h
    rw [List.foldl_cons]
    apply ih
    rcases alertStep_cases now acc d with he | ⟨_, he⟩
    · rw [he]; exact h
    · rw [he]; exact passShape_mark _ _ _ _ h

theorem check_for_alerts_shape (st : Store) (now : Int) :
    passShape st (check_for_alerts st now).2 :=
  foldl_alertStep_shape now _ ([], st) st (passShape_refl st)

theorem foldl_alertStep_src (now : Int) :
    ∀ (ds : List DropRow) (acc : List DropRow × Store) (d : DropRow),
      d ∈ (ds.foldl (alertStep now) acc).1 →
      d ∈ acc.1 ∨ (d ∈ ds ∧ d.notified = false) := by
  intro ds
  induction ds with
  | nil => intro acc d h; exact Or.inl h
  | cons a t ih =>
    intro acc d h
    rw [List.foldl_cons] at h
    rcases ih _ d h with hm | ⟨hm, hn⟩
    · rcases alertStep_cases now acc a with he | ⟨hna, he⟩
      · rw [he] at hm; exact Or.inl hm
      · rw [he] at hm
        rcases List.mem_append.mp hm with h1 | h1
        · exact Or.inl h1
        · right
          obtain rfl := List.mem_singleton.mp h1
          exact ⟨List.mem_cons_self _ _, hna⟩
    · exact Or.inr ⟨List.mem_cons_of_mem _ hm, hn⟩

theorem foldl_alertStep_marked (now : Int) (i : Nat) :
    ∀ (ds : List DropRow) (acc : List DropRow × Store),
      ((∃ d ∈ acc.1, d.id = i) → ∀ r ∈ acc.2.rows, r.id = i → r.notified = true) →
      (∃ d ∈ (ds.foldl (alertStep now) acc).1, d.id = i) →
      ∀ r ∈ (ds.foldl (alertStep now) acc).2.rows, r.id = i → r.notified = true := by
  intro ds
  induction ds with
  | nil => intro acc h; exact h
  | cons a t ih =>
    intro acc hP
    rw [List.foldl_cons]
    apply ih
    rcases alertStep_cases now acc a with he | ⟨hn, he⟩
    · rw [he]; exact hP
    · rw [he]
      rintro ⟨d, hd, hdi⟩ r hr hri
      rw [mark_rows_map] at hr
      obtain ⟨r0, hr0, rfl⟩ := List.mem_map.mp hr
      by_cases hid : (r0.id == a.id) = true
      · rw [if_pos hid]
        rfl
      · rw [if_neg hid] at hri ⊢
        rcases List.mem_append.mp hd with h1 | h1
        · exact hP ⟨d, h1, hdi⟩ r0 hr0 hri
        · obtain rfl := List.mem_singleton.mp h1
          exact absurd (beq_iff_eq.mpr (hri.trans hdi.symm)) hid

theorem mem_get_all_drops {st : Store} {status : String} {d : DropRow} :
    d ∈ get_all_drops st status ↔ d ∈ st.rows ∧ d.status = status := by
  unfold get_all_drops
  rw [List.mem_insertionSort, List.mem_filter]
  simp [beq_iff_eq]

theorem alerted_marked (st : Store) (n1 : Int) (i : Nat)
    (h : ∃ d ∈ (check_for_alerts st n1).1, d.id = i) :
    ∀ r ∈ (check_for_alerts st n1).2.rows, r.id = i → r.notified = true := by
  unfold check_for_alerts at h ⊢
  exact foldl_alertStep_marked n1 i _ ([], st) (by rintro ⟨d, hd, _⟩; simp at hd) h


theorem natKeyMatches_iff {l : Listing} {r : DropRow} :
    natKeyMatches l r = true ↔ rowKey r = (l.name, l.retailer, l.url) := by
  simp [natKeyMatches, rowKey, Prod.ext_iff, and_assoc]

theorem save_drop_rows (st : Store) (l : Listing) (now : Int) :
    (save_drop st l now).rows = st.rows.filter (fun r => !(natKeyMatches l r)) ++
      [⟨st.nextId, l.name, l.retailer, l.url, l.price, l.drop_date, none, "upcoming",
        now, now, false⟩] := rfl

theorem filter_key_save_drop (st : Store) (l : Listing) (now : Int) :
    (save_drop st l now).rows.filter (natKeyMatches l) =
      [⟨st.nextId, l.name, l.retailer, l.url, l.price, l.drop_date, none, "upcoming",
        now, now, false⟩] := by
  rw [save_drop_rows, List.filter_append]
  have h1 : (st.rows.filter (fun r => !(natKeyMatches l r))).filter (natKeyMatches l) = [] := by
    rw [List.filter_filter]
    apply List.filter_eq_nil_iff.mpr
    intro a _
    cases h : natKeyMatches l a <;> simp [h]
  rw [h1]
  simp [natKeyMatches]


theorem keysDistinct_save (st : Store) (l : Listing) (now : Int)
    (h : keysDistinct st.rows) : keysDistinct (save_drop st l now).rows := by
  rw [keysDistinct, save_drop_rows]
  apply List.pairwise_append.mpr
  refine ⟨h.filter _, List.pairwise_singleton _ _, ?_⟩
  intro a ha b hb
  obtain rfl := List.mem_singleton.mp hb
  have hna := (List.mem_filter.mp ha).2
  intro hkey
  have hmatch : natKeyMatches l a = true := natKeyMatches_iff.mpr (by simpa using hkey)
  simp [hmatch] at hna

theorem keysDistinct_reconcileBatch :
    ∀ (batch : List (Listing × Int)) (st : Store), keysDistinct st.rows →
      keysDistinct (reconcileBatch st batch).rows := by
  intro batch
  induction batch with
  | nil => intro st h; exact h
  | cons p t ih =>
    intro st h
    show keysDistinct ((t.foldl (fun s q => save_drop s q.1 q.2) (save_drop st p.1 p.2)).rows)
    exact ih _ (keysDistinct_save _ _ _ h)

theorem length_filter_split (rows : List DropRow) (p : DropRow → Bool) :
    rows.length = (rows.filter p).length + (rows.filter (fun r => !(p r))).length := by
  induction rows with
  | nil => rfl
  | cons a t ih =>
    cases h : p a <;> simp [List.filter_cons, h, ih] <;> omega

theorem length_filter_key_eq_one {rows : List DropRow} {l : Listing}
    (hdist : rows.Pairwise (fun a b => rowKey a ≠ rowKey b))
    {r : DropRow} (hr : r ∈ rows) (hk : natKeyMatches l r = true) :
    (rows.filter (natKeyMatches l)).length = 1 := by
  induction rows with
  | nil => simp at hr
  | cons a t ih =>
    rw [List.pairwise_cons] at hdist
    obtain ⟨ha, ht⟩ := hdist
    rcases List.mem_cons.mp hr with rfl | hrt
    · rw [List.filter_cons_of_pos hk]
      have hnil : t.filter (natKeyMatches l) = [] := by
        apply List.filter_eq_nil_iff.mpr
        intro x hx hpx
        exact ha x hx ((natKeyMatches_iff.mp hk).trans (natKeyMatches_iff.mp hpx).symm)
      rw [hnil]
      rfl
    · by_cases hpa : natKeyMatches l a = true
      · exact absurd ((natKeyMatches_iff.mp hpa).trans (natKeyMatches_iff.mp hk).symm)
          (ha r hrt)
      · rw [List.filter_cons_of_neg (by simpa using hpa)]
        exact ih ht hrt

theorem save_drop_length (st : Store) (l : Listing) (now : Int)
    (hdist : keysDistinct st.rows) (hex : ∃ r ∈ st.rows, natKeyMatches l r = true) :
    (save_drop st l now).rows.length = st.rows.length := by
  rw [save_drop_rows, List.length_append]
  obtain ⟨r, hr, hk⟩ := hex
  have hone := length_filter_key_eq_one hdist hr hk
  have hsplit := length_filter_split st.rows (natKeyMatches l)
  simp only [List.length_cons, List.length_nil]
  omega




theorem classifyTier_eq (diff : Int) :
    (classifyTier diff = some Tier.live_now ↔ -3600 < diff ∧ diff < 0) ∧
    (classifyTier diff = some Tier.imminent ↔ 0 < diff ∧ diff < 3600) ∧
    (classifyTier diff = some Tier.same_day ↔ 3600 < diff ∧ diff < 86400) ∧
    (classifyTier diff = some Tier.week_out ↔ 518400 < diff ∧ diff < 604800) ∧
    (classifyTier diff = none ↔
      diff ≤ -3600 ∨ diff = 0 ∨ diff = 3600 ∨ (86400 ≤ diff ∧ diff ≤ 518400) ∨
        604800 ≤ diff) := by
  unfold classifyTier
  split_ifs with h1 h2 h3 h4 <;> refine ⟨?_, ?_, ?_, ?_, ?_⟩ <;> simp_all <;> omega

theorem evalDrop_eq_classify {now target : Int} {s : String} {d : DropRow}
    (hd : d.drop_date = some s) (hs : fromisoformat s = some target) :
    evalDrop now d = classifyTier (target - now) := by
  unfold evalDrop
  rw [hd]
  simp only [evalDropAux, fromisoformat_ne_empty hs, Bool.not_false, if_true, hs]
  rfl


/-- C1 counterexample: a drop whose stored notified flag is already set (the
only recorded fired-notification state the store has, together with the
notifications log) is still alerted by the desktop tier evaluation, which
consults neither and writes nothing, so the same tier fires again on every
evaluation inside the window. -/
theorem desktop_refires_after_notified :
    ((⟨[⟨1, "Booster Box", "RetailerA", "http://x/1", none, some "2025-03-01", none,
        "upcoming", 0, 0, true⟩], [⟨1, 0, "7-day-alert"⟩], 2⟩ : Store).rows.map
      (fun r => r.notified) = [true]) ∧
    check_upcoming_drops
      ⟨[⟨1, "Booster Box", "RetailerA", "http://x/1", none, some "2025-03-01", none,
        "upcoming", 0, 0, true⟩], [⟨1, 0, "7-day-alert"⟩], 2⟩
      (86400 * 20148 - 1800) = [1] := by decide

/-- C1 (amended): the monitor's check_for_alerts path is at-most-once per
drop: once a pass has alerted on a drop id (and so set its notified flag), no
later pass over the resulting store alerts on that id again, at any now.  The
desktop tier path has no such guard (see the counterexample). -/
theorem check_for_alerts_at_most_once (st : Store) (n1 n2 : Int) (i : Nat)
    (h : ∃ d ∈ (check_for_alerts st n1).1, d.id = i) :
    ∀ d2 ∈ (check_for_alerts (check_for_alerts st n1).2 n2).1, d2.id ≠ i := by
  intro d2 hd2 hid
  have hmarked := alerted_marked st n1 i h
  have hsrc := foldl_alertStep_src n2
    (get_all_drops (check_for_alerts st n1).2 "upcoming")
    ([], (check_for_alerts st n1).2) d2 hd2
  rcases hsrc with hm | ⟨hm, hn⟩
  · simp at hm
  · have hrow := (mem_get_all_drops.mp hm).1
    have htrue := hmarked d2 hrow hid
    rw [htrue] at hn
    exact Bool.noConfusion hn

/-- C1 witness: a concrete first pass alerts on drop 1; the second pass over
the updated store does not. -/
theorem check_for_alerts_at_most_once_witness :
    (∃ d ∈ (check_for_alerts
      ⟨[⟨1, "Booster Box", "RetailerA", "http://x/1", some (11999, 2),
        some "2025-03-01", none, "upcoming", 0, 0, false⟩], [], 2⟩
      (86400 * 20142)).1, d.id = 1) ∧
    ∀ d2 ∈ (check_for_alerts (check_for_alerts
      ⟨[⟨1, "Booster Box", "RetailerA", "http://x/1", some (11999, 2),
        some "2025-03-01", none, "upcoming", 0, 0, false⟩], [], 2⟩
      (86400 * 20142)).2 (86400 * 20142)).1, d2.id ≠ 1 :=
  ⟨by decide, check_for_alerts_at_most_once _ _ _ 1 (by decide)⟩

/-- C2 counterexample: at the exact boundary instants the claim assigns to a
tier, the code produces no decision: with time_diff = 0 the claim says
live_now and with time_diff = 1h the claim says same_day, but all the elif
bounds are strict, so the desktop evaluation yields nothing. -/
theorem boundary_instants_yield_no_decision :
    check_upcoming_drops
      ⟨[⟨1, "Booster Box", "RetailerA", "http://x/1", none, some "2025-03-01", none,
        "upcoming", 0, 0, false⟩], [], 2⟩ (86400 * 20148) = [] ∧
    check_upcoming_drops
      ⟨[⟨1, "Booster Box", "RetailerA", "http://x/1", none, some "2025-03-01", none,
        "upcoming", 0, 0, false⟩], [], 2⟩ (86400 * 20148 - 3600) = [] := by decide

/-- C2 (amended): for a drop with a parseable date, the desktop evaluation
classifies exactly by the four pairwise disjoint open windows
(-1h, 0), (0, 1h), (1h, 24h) and (6d, 7d) on time_diff = target - now, and
yields no decision exactly on the complement, which includes the boundary
instants 0 and 1h themselves. -/
theorem evalDrop_window_characterization (now target : Int) (s : String) (d : DropRow)
    (hd : d.drop_date = some s) (hs : fromisoformat s = some target) :
    (evalDrop now d = some Tier.live_now ↔ -3600 < target - now ∧ target - now < 0) ∧
    (evalDrop now d = some Tier.imminent ↔ 0 < target - now ∧ target - now < 3600) ∧
    (evalDrop now d = some Tier.same_day ↔ 3600 < target - now ∧ target - now < 86400) ∧
    (evalDrop now d = some Tier.week_out ↔ 518400 < target - now ∧ target - now < 604800) ∧
    (evalDrop now d = none ↔
      target - now ≤ -3600 ∨ target - now = 0 ∨ target - now = 3600 ∨
        (86400 ≤ target - now ∧ target - now ≤ 518400) ∨ 604800 ≤ target - now) := by
  rw [evalDrop_eq_classify hd hs]
  exact classifyTier_eq (target - now)

/-- C2 witness: the window characterization applied to a concrete drop thirty
minutes before its midnight release classifies it as imminent. -/
theorem evalDrop_window_characterization_witness :
    evalDrop (86400 * 20148 - 1800)
      ⟨1, "Booster Box", "RetailerA", "http://x/1", none, some "2025-03-01", none,
        "upcoming", 0, 0, false⟩ = some Tier.imminent :=
  ((evalDrop_window_characterization (86400 * 20148 - 1800) (86400 * 20148)
    "2025-03-01" _ rfl (by decide)).2.1).mpr (by decide)

/-- C3 counterexample: reconciling a listing with a null price and null date
against a drop whose price and date are known erases both, because INSERT OR
REPLACE rewrites the whole row with the listing's values. -/
theorem null_price_overwrites_known_price :
    ((save_drop
      ⟨[⟨1, "Booster Box", "RetailerA", "http://x/1", some (11999, 2),
        some "2025-03-01", none, "upcoming", 0, 0, false⟩], [], 2⟩
      ⟨"Booster Box", "RetailerA", "http://x/1", none, none⟩ 100).rows.map
        (fun r => (r.price, r.drop_date))) = [(none, none)] := by decide

/-- C3 (amended): reconciling a listing overwrites the stored price and
target date with the listing's values unconditionally, nulls included: after
save_drop the unique row under the listing's key carries exactly the
listing's price and drop_date, with defaults for the remaining columns. -/
theorem save_drop_overwrites_unconditionally (st : Store) (l : Listing) (now : Int) :
    (save_drop st l now).rows.filter (natKeyMatches l) =
      [⟨st.nextId, l.name, l.retailer, l.url, l.price, l.drop_date, none, "upcoming",
        now, now, false⟩] :=
  filter_key_save_drop st l now

/-- C4 counterexample: reconciling the same listing twice replaces the row,
setting discovered_date to the time of the second reconciliation instead of
keeping the value of the first insert. -/
theorem discovered_date_not_immutable :
    ((save_drop (save_drop emptyStore
        ⟨"Booster Box", "RetailerA", "http://x/1", some (11999, 2), some "2025-03-01"⟩ 10)
        ⟨"Booster Box", "RetailerA", "http://x/1", some (11999, 2), some "2025-03-01"⟩
        20).rows.map (fun r => r.discovered_date)) = [20] := by decide

/-- C4 (amended): reconciling the same listing twice still leaves exactly one
row for its key, but the row is rewritten whole: discovered_date and
last_checked both equal the second reconciliation time and the notified flag
is back at its default. -/
theorem save_drop_twice_single_row_rewritten (st : Store) (l : Listing) (t1 t2 : Int) :
    ((save_drop (save_drop st l t1) l t2).rows.filter (natKeyMatches l)).map
      (fun r => (r.discovered_date, r.last_checked, r.notified)) = [(t2, t2, false)] := by
  rw [filter_key_save_drop]
  rfl

/-- C5 counterexample: two raw records with the same natural key whose price
texts parse to 119.99 and to nothing end as one row whose price is null, the
latest value, not the latest non-null value. -/
theorem later_null_price_wins :
    ((reconcileBatch emptyStore
      [(mkListing "Booster Box" "RetailerA" "http://x/1" "$119.99" "2025-03-01", 10),
       (mkListing "Booster Box" "RetailerA" "http://x/1" "Out of stock" "2025-03-01",
         20)]).rows.map (fun r => r.price)) = [none] := by decide

/-- C5 (amended): natural-key uniqueness is an invariant of reconciliation,
and two raw records with the same key end as a single row whose price is the
second record's extracted price, null or not. -/
theorem reconcile_uniqueness_and_last_write :
    (∀ (st : Store) (batch : List (Listing × Int)), keysDistinct st.rows →
      keysDistinct (reconcileBatch st batch).rows) ∧
    (∀ (st : Store) (n r u pt1 dt1 pt2 dt2 : String) (t1 t2 : Int),
      ((reconcileBatch st [(mkListing n r u pt1 dt1, t1),
          (mkListing n r u pt2 dt2, t2)]).rows.filter
        (natKeyMatches (mkListing n r u pt2 dt2))).map (fun x => x.price) =
        [extract_price pt2]) := by
  constructor
  · intro st batch h
    exact keysDistinct_reconcileBatch batch st h
  · intro st n r u pt1 dt1 pt2 dt2 t1 t2
    have hb : reconcileBatch st [(mkListing n r u pt1 dt1, t1),
        (mkListing n r u pt2 dt2, t2)] =
      save_drop (save_drop st (mkListing n r u pt1 dt1) t1) (mkListing n r u pt2 dt2) t2 :=
      rfl
    rw [hb, filter_key_save_drop]
    rfl

/-- C5 witness: the uniqueness invariant and the last-write price on a
concrete two-record batch over the empty store. -/
theorem reconcile_uniqueness_and_last_write_witness :
    keysDistinct (reconcileBatch emptyStore
      [(mkListing "Booster Box" "RetailerA" "http://x/1" "$119.99" "", 10),
       (mkListing "Booster Box" "RetailerA" "http://x/1" "Out of stock" "", 20)]).rows ∧
    ((reconcileBatch emptyStore
      [(mkListing "Booster Box" "RetailerA" "http://x/1" "$119.99" "", 10),
       (mkListing "Booster Box" "RetailerA" "http://x/1" "Out of stock" "", 20)]).rows.filter
        (natKeyMatches (mkListing "Booster Box" "RetailerA" "http://x/1" "Out of stock" ""))).map
        (fun x => x.price) = [extract_price "Out of stock"] :=
  ⟨reconcile_uniqueness_and_last_write.1 emptyStore _ List.Pairwise.nil,
   reconcile_uniqueness_and_last_write.2 emptyStore "Booster Box" "RetailerA" "http://x/1"
     "$119.99" "" "Out of stock" "" 10 20⟩

/-- C6 counterexample: a drop whose date lies 25 hours in the past goes
through an alert pass with its status still upcoming, and it still appears in
the subsequent upcoming scan; nothing in the code ever writes the status
expired. -/
theorem expired_drop_stays_upcoming :
    ((check_for_alerts
      ⟨[⟨1, "Booster Box", "RetailerA", "http://x/1", none, some "2025-03-01", none,
        "upcoming", 0, 0, false⟩], [], 2⟩
      (86400 * 20148 + 90000)).2.rows.map (fun r => r.status) = ["upcoming"]) ∧
    ((get_all_drops (check_for_alerts
      ⟨[⟨1, "Booster Box", "RetailerA", "http://x/1", none, some "2025-03-01", none,
        "upcoming", 0, 0, false⟩], [], 2⟩
      (86400 * 20148 + 90000)).2 "upcoming").map (fun r => r.id) = [1]) := by decide

/-- C6 (amended): an alert pass never changes any drop's status: every row
that went in with status upcoming comes out with status upcoming (only the
notified flag can change) and is still returned by the upcoming scan,
whatever its target date. -/
theorem alert_pass_preserves_status (st : Store) (now : Int) (i : Nat)
    (h : ∃ r ∈ st.rows, r.id = i ∧ r.status = "upcoming") :
    ∃ r2 ∈ (check_for_alerts st now).2.rows, r2.id = i ∧ r2.status = "upcoming" ∧
      r2 ∈ get_all_drops (check_for_alerts st now).2 "upcoming" := by
  obtain ⟨r, hr, hid, hst⟩ := h
  obtain ⟨g, hg, hcases⟩ := check_for_alerts_shape st now
  have hmem : g r ∈ (check_for_alerts st now).2.rows := by
    rw [hg]
    exact List.mem_map_of_mem g hr
  have hid2 : (g r).id = i := by
    rcases hcases r with h1 | h1 <;> rw [h1] <;> exact hid
  have hst2 : (g r).status = "upcoming" := by
    rcases hcases r with h1 | h1 <;> rw [h1] <;> exact hst
  exact ⟨g r, hmem, hid2, hst2, mem_get_all_drops.mpr ⟨hmem, hst2⟩⟩

/-- C6 witness: the status preservation applied to the concrete drop whose
date lies 25 hours in the past. -/
theorem alert_pass_preserves_status_witness :
    ∃ r2 ∈ (check_for_alerts
      ⟨[⟨1, "Booster Box", "RetailerA", "http://x/1", none, some "2025-03-01", none,
        "upcoming", 0, 0, false⟩], [], 2⟩
      (86400 * 20148 + 90000)).2.rows, r2.id = 1 ∧ r2.status = "upcoming" ∧
      r2 ∈ get_all_drops (check_for_alerts
        ⟨[⟨1, "Booster Box", "RetailerA", "http://x/1", none, some "2025-03-01", none,
          "upcoming", 0, 0, false⟩], [], 2⟩
        (86400 * 20148 + 90000)).2 "upcoming" :=
  alert_pass_preserves_status _ (86400 * 20148 + 90000) 1 (by decide)

/-- C7 (confirmed): for a listing whose natural key already exists, the
INSERT OR REPLACE never reaches the IntegrityError fallback, and it rewrites
the whole row: discovered_date becomes the current time, the notified flag
returns to its default 0 (re-arming the 7-day alert), status returns to
upcoming, and the row count is unchanged. -/
theorem insert_or_replace_rearms (st : Store) (l : Listing) (now : Int)
    (hdist : keysDistinct st.rows) (hex : ∃ r ∈ st.rows, natKeyMatches l r = true) :
    (insert_or_replace_drop st l now).isSome = true ∧
    ((save_drop st l now).rows.filter (natKeyMatches l)).map
      (fun r => (r.discovered_date, r.notified, r.status)) = [(now, false, "upcoming")] ∧
    (save_drop st l now).rows.length = st.rows.length := by
  refine ⟨rfl, ?_, save_drop_length st l now hdist hex⟩
  rw [filter_key_save_drop]
  rfl

/-- C7 witness: re-sighting an already notified drop resets its bookkeeping
at a concrete store. -/
theorem insert_or_replace_rearms_witness :
    (insert_or_replace_drop
      ⟨[⟨1, "Booster Box", "RetailerA", "http://x/1", some (11999, 2),
        some "2025-03-01", none, "upcoming", 0, 0, true⟩], [], 2⟩
      ⟨"Booster Box", "RetailerA", "http://x/1", none, none⟩ 50).isSome = true ∧
    ((save_drop
      ⟨[⟨1, "Booster Box", "RetailerA", "http://x/1", some (11999, 2),
        some "2025-03-01", none, "upcoming", 0, 0, true⟩], [], 2⟩
      ⟨"Booster Box", "RetailerA", "http://x/1", none, none⟩ 50).rows.filter
        (natKeyMatches ⟨"Booster Box", "RetailerA", "http://x/1", none, none⟩)).map
      (fun r => (r.discovered_date, r.notified, r.status)) = [(50, false, "upcoming")] ∧
    (save_drop
      ⟨[⟨1, "Booster Box", "RetailerA", "http://x/1", some (11999, 2),
        some "2025-03-01", none, "upcoming", 0, 0, true⟩], [], 2⟩
      ⟨"Booster Box", "RetailerA", "http://x/1", none, none⟩ 50).rows.length =
      (⟨[⟨1, "Booster Box", "RetailerA", "http://x/1", some (11999, 2),
        some "2025-03-01", none, "upcoming", 0, 0, true⟩], [], 2⟩ : Store).rows.length :=
  insert_or_replace_rearms _ _ 50 (List.pairwise_singleton _ _) (by decide)

/-- C8 (confirmed): a date captured by either of the first two extract_date
patterns is stored as matched, datetime.fromisoformat rejects it, and the
check_for_alerts loop swallows the failure, producing no alert and leaving
the store untouched; only ISO YYYY-MM-DD dates can parse and alert. -/
theorem non_iso_dates_never_alert (text s : String)
    (h : reSearch datePat1 text = some s ∨
      (reSearch datePat1 text = none ∧ reSearch datePat2 text = some s)) :
    extract_date text = some s ∧ fromisoformat s = none ∧
      ∀ (now : Int) (acc : List DropRow × Store) (d : DropRow),
        d.drop_date = some s → alertStep now acc d = acc := by
  have hiso : fromisoformat s = none := by
    rcases h with h1 | ⟨_, h2⟩
    · obtain ⟨c, hc, rfl⟩ := reSearch_pat1_slash h1
      exact fromisoformat_none_of_bad hc (by decide) (by decide)
    · obtain ⟨c, hc, hsp⟩ := reSearch_pat2_space h2
      have hcc : c.isDigit = false ∧ (c == '-') = false := by
        simp [isSpaceChar] at hsp
        rcases hsp with ((rfl | rfl) | rfl) | rfl <;> exact ⟨by decide, by decide⟩
      exact fromisoformat_none_of_bad hc hcc.1 hcc.2
  refine ⟨?_, hiso, fun now acc d hd => alertStep_skip_of_parse_fail hd hiso⟩
  unfold extract_date
  rcases h with h1 | ⟨h1, h2⟩
  · rw [h1]
  · rw [h1, h2]

/-- C8 witness: a concrete scrape text captured by the MM/DD/YYYY pattern is
stored raw, fails to parse, and its drop is skipped without any change. -/
theorem non_iso_dates_never_alert_witness :
    extract_date "Releases 12/25/2025 preorder" = some "12/25/2025" ∧
    fromisoformat "12/25/2025" = none ∧
    alertStep 0 ([], emptyStore)
      ⟨1, "Booster Box", "RetailerA", "http://x/1", none, some "12/25/2025", none,
        "upcoming", 0, 0, false⟩ = ([], emptyStore) := by
  obtain ⟨h1, h2, h3⟩ := non_iso_dates_never_alert "Releases 12/25/2025 preorder"
    "12/25/2025" (Or.inl (by decide))
  exact ⟨h1, h2, h3 0 ([], emptyStore) _ rfl⟩

/-- C9 counterexample: a record with an empty name is reconciled into the
store like any other record; no NormalizationError or any other identity
validation exists in the code. -/
theorem empty_name_record_is_stored :
    (save_drop emptyStore ⟨"", "Walmart", "http://x", none, none⟩ 5).rows.length = 1 ∧
    (save_drop emptyStore ⟨"", "Walmart", "http://x", none, none⟩ 5).rows.map
      (fun r => r.product_name) = [""] := by decide

/-- C9 (amended): the code performs no identity validation: a record with an
empty name, or an empty url, is reconciled and stored exactly like any other
record (the empty string satisfies the NOT NULL column constraints). -/
theorem no_identity_validation (st : Store) (nm rt u : String) (p : Option Price)
    (dd : Option String) (now : Int) :
    ((save_drop st ⟨"", rt, u, p, dd⟩ now).rows.filter
        (natKeyMatches ⟨"", rt, u, p, dd⟩)).map (fun r => r.product_name) = [""] ∧
    ((save_drop st ⟨nm, rt, "", p, dd⟩ now).rows.filter
        (natKeyMatches ⟨nm, rt, "", p, dd⟩)).map (fun r => r.url) = [""] := by
  constructor <;> rw [filter_key_save_drop] <;> rfl

/-- C10 counterexample: the implemented scan order puts the null-dated row
first (SQLite sorts NULL first under ASC) and breaks date ties by
discovered_date descending, while the claim prescribes nulls last and ties
ascending: on a concrete store the two orders disagree. -/
theorem scan_order_nulls_first_ties_desc :
    ((get_all_drops
      ⟨[⟨1, "A", "R", "u1", none, none, none, "upcoming", 5, 0, false⟩,
        ⟨2, "B", "R", "u2", none, some "2025-03-01", none, "upcoming", 10, 0, false⟩,
        ⟨3, "C", "R", "u3", none, some "2025-03-01", none, "upcoming", 20, 0, false⟩],
        [], 4⟩ "upcoming").map (fun r => r.id) = [1, 3, 2]) ∧
    ((spec_scan_order
      ⟨[⟨1, "A", "R", "u1", none, none, none, "upcoming", 5, 0, false⟩,
        ⟨2, "B", "R", "u2", none, some "2025-03-01", none, "upcoming", 10, 0, false⟩,
        ⟨3, "C", "R", "u3", none, some "2025-03-01", none, "upcoming", 20, 0, false⟩],
        [], 4⟩).map (fun r => r.id) = [2, 3, 1]) := by decide

/-- C10 (amended): the scan returns exactly the rows with the requested
status, ordered by the SQL comparator actually used: drop_date ascending as a
raw string with nulls first, ties broken by discovered_date descending. -/
theorem get_all_drops_characterization (st : Store) (status : String) :
    (get_all_drops st status).Perm (st.rows.filter (fun r => r.status == status)) ∧
    List.Sorted sqlRowRel (get_all_drops st status) :=
  ⟨List.perm_insertionSort sqlRowRel _, List.sorted_insertionSort sqlRowRel _⟩
